import Mathlib

/-!
Shallow embedding of the Hit-and-Blow game repository.

Strings of the TypeScript source are modelled as `List Char` in the pure
game-logic layer (src/utils/gameLogic.ts) and as `String` in the room-service
layer (src/utils/roomService.ts).  `Math.random()`-driven choices are modelled
by an explicit oracle `r : Nat → Nat`, reduced modulo the bound the source
passes to `Math.floor(Math.random() * bound)`.  Firestore documents are
modelled as an `Option Room` state; `updateDoc` on an absent document fails,
`getDoc` on an absent document reports absence.
-/

namespace HitAndBlow

/-! Game configuration (gameLogic.ts, `GameConfig`). -/

structure GameConfig where
  digits : Nat
  allowDuplicate : Bool
deriving DecidableEq

/-! Result of a guess (gameLogic.ts, `GuessResult`). -/

structure GuessResult where
  hit : Nat
  blow : Nat
deriving DecidableEq

/-- Loop of `checkGuess` (gameLogic.ts lines 91-99): walks the positions of
`secret` and the corresponding positions of `guess` in lockstep, with the full
`secret` kept for the containment test `secret.includes(guess[i])`. -/
def checkGuessAux (secret : List Char) : List Char → List Char → GuessResult
  | s :: st, g :: gt =>
    let r := checkGuessAux secret st gt
    if s = g then { r with hit := r.hit + 1 }
    else if g ∈ secret then { r with blow := r.blow + 1 }
    else r
  | _, _ => { hit := 0, blow := 0 }

/-- Embedding of `checkGuess` (gameLogic.ts lines 86-102). -/
def checkGuess (secret guess : List Char) : GuessResult :=
  checkGuessAux secret secret guess

/-- Embedding of `isGameClear` (gameLogic.ts lines 110-112). -/
def isGameClear (result : GuessResult) (config : GameConfig) : Bool :=
  result.hit == config.digits

/-- Number of positions `i` with `secret[i] == guess[i]`, written from the
spec's words for the hit count. -/
def specHitCount (secret guess : List Char) : Nat :=
  (List.range secret.length).countP
    (fun i => decide (secret.getD i ' ' = guess.getD i ' '))

/-- Number of positions `i` with `secret[i] != guess[i]` but `guess[i]`
occurring somewhere in `secret`, written from the spec's words for the blow
count. -/
def specBlowCount (secret guess : List Char) : Nat :=
  (List.range secret.length).countP
    (fun i => decide (secret.getD i ' ' ≠ guess.getD i ' ' ∧ guess.getD i ' ' ∈ secret))

lemma checkGuessAux_nil_left (secret : List Char) (gt : List Char) :
    checkGuessAux secret [] gt = { hit := 0, blow := 0 } := by
  cases gt <;> rfl

lemma countP_range_succ (n : Nat) (f : Nat → Bool) :
    (List.range (n + 1)).countP f =
      ((List.range n).countP (fun i => f (i + 1))) + (if f 0 then 1 else 0) := by
  rw [List.range_succ_eq_map, List.countP_cons, List.countP_map]
  rfl

/-- The `checkGuess` loop computes exactly the positional hit and blow counts,
for suffixes of equal length. -/
lemma checkGuessAux_eq (secret : List Char) :
    ∀ st gt : List Char, st.length = gt.length →
      checkGuessAux secret st gt =
        { hit := (List.range st.length).countP
            (fun i => decide (st.getD i ' ' = gt.getD i ' ')),
          blow := (List.range st.length).countP
            (fun i => decide (st.getD i ' ' ≠ gt.getD i ' ' ∧ gt.getD i ' ' ∈ secret)) } := by
  intro st
  induction st with
  | nil => intro gt _; simp [checkGuessAux_nil_left]
  | cons s st ih =>
    intro gt h
    cases gt with
    | nil => simp at h
    | cons g gt =>
      have ihg := ih gt (by simpa using h)
      simp only [checkGuessAux, ihg, List.length_cons]
      rw [countP_range_succ, countP_range_succ]
      simp only [List.getD_cons_succ, List.getD_cons_zero]
      by_cases hsg : s = g
      · simp [hsg]
      · by_cases hmem : g ∈ secret
        · simp [hsg, hmem]
        · simp [hsg, hmem]

/-- Claim C1: for every pair of equal-length digit strings, `checkGuess`
returns the number of exact positional matches as `hit` and the number of
positions whose character differs but occurs somewhere in the secret as
`blow`; in particular `checkGuess "1234" "1243" = {hit := 2, blow := 2}`. -/
theorem checkGuess_counts (secret guess : List Char)
    (h : secret.length = guess.length) :
    (checkGuess secret guess).hit = specHitCount secret guess ∧
    (checkGuess secret guess).blow = specBlowCount secret guess ∧
    checkGuess ['1', '2', '3', '4'] ['1', '2', '4', '3'] = { hit := 2, blow := 2 } := by
  have hmain := checkGuessAux_eq secret secret guess h
  refine ⟨?_, ?_, by decide⟩
  · rw [checkGuess, hmain]; rfl
  · rw [checkGuess, hmain]; rfl

/-- Concrete instantiation of `checkGuess_counts` at the spec's example. -/
theorem checkGuess_counts_witness :
    (['1', '2', '3', '4'] : List Char).length = (['1', '2', '4', '3'] : List Char).length ∧
    (checkGuess ['1', '2', '3', '4'] ['1', '2', '4', '3']).hit =
      specHitCount ['1', '2', '3', '4'] ['1', '2', '4', '3'] ∧
    checkGuess ['1', '2', '3', '4'] ['1', '2', '4', '3'] = { hit := 2, blow := 2 } := by
  have h := checkGuess_counts ['1', '2', '3', '4'] ['1', '2', '4', '3'] (by decide)
  exact ⟨by decide, h.1, h.2.2⟩

/-- Strict Mastermind blow count, modelled from the spec's words: after
removing the exact positional matches, each digit contributes to `blow` at
most the number of its remaining occurrences in each string. -/
def mastermindBlow (secret guess : List Char) : Nat :=
  let nonHit := (secret.zip guess).filter (fun p => p.1 != p.2)
  let sRem := nonHit.map Prod.fst
  let gRem := nonHit.map Prod.snd
  (gRem.dedup.map (fun d => min (sRem.count d) (gRem.count d))).sum

/-- Claim C6: there are equal-length digit strings with repeated digits on
which `checkGuess` reports strictly more blows than the multiplicity-capped
Mastermind count. -/
theorem checkGuess_overcounts_blow :
    ∃ secret guess : List Char,
      secret.length = guess.length ∧
      ¬ secret.Nodup ∧ ¬ guess.Nodup ∧
      (∀ c ∈ secret, c.isDigit) ∧ (∀ c ∈ guess, c.isDigit) ∧
      mastermindBlow secret guess < (checkGuess secret guess).blow := by
  refine ⟨['1', '1', '2'], ['2', '2', '1'], by decide, by decide, by decide,
    by decide, by decide, by decide⟩

/-! Guess validation (gameLogic.ts, `validateGuess`). -/

/-- Reasons a guess can be rejected, one per error message of the source. -/
inductive ValidationError where
  | WrongLength
  | NonDigitCharacter
  | DuplicateNotAllowed
deriving DecidableEq

/-- Embedding of `validateGuess` (gameLogic.ts lines 56-78).  The regular
expression `/^\d+$/` holds exactly of the nonempty all-digit strings; the
size of `new Set(guess.split(''))` is the number of distinct characters. -/
def validateGuess (guess : List Char) (config : GameConfig) : Option ValidationError :=
  if guess.length ≠ config.digits then some .WrongLength
  else if ¬ (guess ≠ [] ∧ ∀ c ∈ guess, c.isDigit) then some .NonDigitCharacter
  else if config.allowDuplicate = false ∧ guess.dedup.length ≠ config.digits then
    some .DuplicateNotAllowed
  else none

/-- Claim C8: `validateGuess` runs its three checks in the fixed order
length, digit-characters, duplicates, and returns the reason of the first
failing check; an input passing all three yields no error.  The config is
assumed well formed (`digits ≥ 1`, per the data model). -/
theorem validateGuess_order (guess : List Char) (config : GameConfig)
    (hd : 1 ≤ config.digits) :
    (validateGuess guess config = some .WrongLength ↔ guess.length ≠ config.digits) ∧
    (validateGuess guess config = some .NonDigitCharacter ↔
      guess.length = config.digits ∧ ∃ c ∈ guess, ¬ c.isDigit) ∧
    (validateGuess guess config = some .DuplicateNotAllowed ↔
      guess.length = config.digits ∧ (∀ c ∈ guess, c.isDigit) ∧
      config.allowDuplicate = false ∧ guess.dedup.length < config.digits) ∧
    (validateGuess guess config = none ↔
      guess.length = config.digits ∧ (∀ c ∈ guess, c.isDigit) ∧
      (config.allowDuplicate = true ∨ guess.dedup.length = config.digits)) := by
  by_cases h1 : guess.length = config.digits
  · have hne : guess ≠ [] := by
      intro hnil
      rw [hnil] at h1
      simp at h1
      omega
    by_cases h2 : ∀ c ∈ guess, c.isDigit
    · have hle : guess.dedup.length ≤ config.digits :=
        h1 ▸ (List.dedup_sublist guess).length_le
      by_cases h3 : config.allowDuplicate = false ∧ guess.dedup.length ≠ config.digits
      · have hv : validateGuess guess config = some .DuplicateNotAllowed := by
          simp only [validateGuess]
          rw [if_neg (fun hcon => hcon h1), if_neg (fun hcon => hcon ⟨hne, h2⟩), if_pos h3]
        have hlt : guess.dedup.length < config.digits := Nat.lt_of_le_of_ne hle h3.2
        refine ⟨?_, ?_, ?_, ?_⟩
        · constructor
          · intro hc; rw [hv] at hc; exact absurd hc (by simp)
          · intro hc; exact absurd h1 hc
        · constructor
          · intro hc; rw [hv] at hc; exact absurd hc (by simp)
          · rintro ⟨-, c, hc, hcd⟩; exact absurd (h2 c hc) hcd
        · exact ⟨fun _ => ⟨h1, h2, h3.1, hlt⟩, fun _ => hv⟩
        · constructor
          · intro hc; rw [hv] at hc; exact absurd hc (by simp)
          · rintro ⟨-, -, hc⟩
            rcases hc with hc | hc
            · rw [hc] at h3; exact absurd h3.1 (by simp)
            · exact absurd hc h3.2
      · have hv : validateGuess guess config = none := by
          simp only [validateGuess]
          rw [if_neg (fun hcon => hcon h1), if_neg (fun hcon => hcon ⟨hne, h2⟩), if_neg h3]
        have h3' : config.allowDuplicate = true ∨ guess.dedup.length = config.digits := by
          rcases Bool.eq_false_or_eq_true config.allowDuplicate with hb | hb
          · left; exact hb
          · right
            by_contra hne'
            exact h3 ⟨hb, hne'⟩
        refine ⟨?_, ?_, ?_, ?_⟩
        · constructor
          · intro hc; rw [hv] at hc; exact absurd hc (by simp)
          · intro hc; exact absurd h1 hc
        · constructor
          · intro hc; rw [hv] at hc; exact absurd hc (by simp)
          · rintro ⟨-, c, hc, hcd⟩; exact absurd (h2 c hc) hcd
        · constructor
          · intro hc; rw [hv] at hc; exact absurd hc (by simp)
          · rintro ⟨-, -, hdup, hlt⟩
            exact (h3 ⟨hdup, Nat.ne_of_lt hlt⟩).elim
        · exact ⟨fun _ => ⟨h1, h2, h3'⟩, fun _ => hv⟩
    · have hv : validateGuess guess config = some .NonDigitCharacter := by
        simp only [validateGuess]
        rw [if_neg (fun hcon => hcon h1), if_pos (fun hcon => h2 hcon.2)]
      have hex : ∃ c ∈ guess, ¬ c.isDigit = true := by
        push_neg at h2
        exact h2
      refine ⟨?_, ?_, ?_, ?_⟩
      · constructor
        · intro hc; rw [hv] at hc; exact absurd hc (by simp)
        · intro hc; exact absurd h1 hc
      · exact ⟨fun _ => ⟨h1, hex⟩, fun _ => hv⟩
      · constructor
        · intro hc; rw [hv] at hc; exact absurd hc (by simp)
        · rintro ⟨-, hall, -⟩; exact absurd hall h2
      · constructor
        · intro hc; rw [hv] at hc; exact absurd hc (by simp)
        · rintro ⟨-, hall, -⟩; exact absurd hall h2
  · have hv : validateGuess guess config = some .WrongLength := by
      simp only [validateGuess]
      rw [if_pos h1]
    refine ⟨⟨fun _ => h1, fun _ => hv⟩, ?_, ?_, ?_⟩
    · constructor
      · intro hc; rw [hv] at hc; exact absurd hc (by simp)
      · rintro ⟨hlen, -⟩; exact absurd hlen h1
    · constructor
      · intro hc; rw [hv] at hc; exact absurd hc (by simp)
      · rintro ⟨hlen, -⟩; exact absurd hlen h1
    · constructor
      · intro hc; rw [hv] at hc; exact absurd hc (by simp)
      · rintro ⟨hlen, -⟩; exact absurd hlen h1

/-- Concrete instantiation of `validateGuess_order` at the spec's example
`validateGuess "12a4"`. -/
theorem validateGuess_order_witness :
    1 ≤ (GameConfig.mk 4 false).digits ∧
    validateGuess ['1', '2', 'a', '4'] (GameConfig.mk 4 false) =
      some .NonDigitCharacter := by
  have h := validateGuess_order ['1', '2', 'a', '4'] (GameConfig.mk 4 false) (by decide)
  exact ⟨by decide, h.2.1.mpr (by decide)⟩

/-! Secret generation (gameLogic.ts, `generateRandomSecret`). -/

/-- Failure of `generateRandomSecret` (the thrown error of gameLogic.ts
line 30). -/
inductive SecretGenError where
  | InvalidConfiguration
deriving DecidableEq

/-- Loop of `generateRandomSecret` (gameLogic.ts lines 33-45): one iteration
per missing digit.  `r` is the random oracle; `Math.floor(Math.random() * b)`
at step `k` is modelled as `r k % b`.  With duplicates allowed the index is
drawn from the full 10-symbol alphabet and the pool is left untouched;
without duplicates the pool shrinks by `splice(randomIndex, 1)`, modelled as
`eraseIdx`. -/
def genLoop (r : Nat → Nat) : Bool → Nat → Nat → List Nat → List Nat
  | _, _, 0, _ => []
  | true, k, n + 1, avail =>
    avail.getD (r k % 10) 0 :: genLoop r true (k + 1) n avail
  | false, k, n + 1, avail =>
    avail.getD (r k % avail.length) 0 ::
      genLoop r false (k + 1) n (avail.eraseIdx (r k % avail.length))

/-- Embedding of `generateRandomSecret` (gameLogic.ts lines 24-48). -/
def generateRandomSecret (config : GameConfig) (r : Nat → Nat) :
    Except SecretGenError (List Char) :=
  if config.allowDuplicate = false ∧ config.digits > 10 then
    .error .InvalidConfiguration
  else
    .ok ((genLoop r config.allowDuplicate 0 config.digits (List.range 10)).map Nat.digitChar)

lemma genLoop_true_spec (r : Nat → Nat) :
    ∀ n k : Nat, (genLoop r true k n (List.range 10)).length = n ∧
      ∀ x ∈ genLoop r true k n (List.range 10), x < 10 := by
  intro n
  induction n with
  | zero => intro k; exact ⟨rfl, by intro x hx; simp [genLoop] at hx⟩
  | succ n ih =>
    intro k
    have hidx : r k % 10 < (List.range 10).length := by
      rw [List.length_range]
      exact Nat.mod_lt _ (by omega)
    have hhead : (List.range 10).getD (r k % 10) 0 = r k % 10 := by
      rw [List.getD_eq_getElem _ _ hidx, List.getElem_range _ hidx]
    constructor
    · simp only [genLoop, List.length_cons, (ih (k + 1)).1]
    · intro x hx
      simp only [genLoop, List.mem_cons] at hx
      rcases hx with hx | hx
      · rw [hx, hhead]; exact Nat.mod_lt _ (by omega)
      · exact (ih (k + 1)).2 x hx

lemma genLoop_false_spec (r : Nat → Nat) :
    ∀ (n : Nat) (avail : List Nat) (k : Nat), n ≤ avail.length → avail.Nodup →
      (genLoop r false k n avail).length = n ∧
      (∀ x ∈ genLoop r false k n avail, x ∈ avail) ∧
      (genLoop r false k n avail).Nodup := by
  intro n
  induction n with
  | zero =>
    intro avail k _ _
    exact ⟨rfl, by intro x hx; simp [genLoop] at hx, List.nodup_nil⟩
  | succ n ih =>
    intro avail k hn hnd
    have hpos : 0 < avail.length := by omega
    have hidx : r k % avail.length < avail.length := Nat.mod_lt _ hpos
    have hhead : avail.getD (r k % avail.length) 0 = avail[r k % avail.length] :=
      List.getD_eq_getElem _ _ hidx
    have hperm : (avail.erase avail[r k % avail.length]).Perm
        (avail.eraseIdx (r k % avail.length)) := List.erase_getElem hidx
    have hlen' : n ≤ (avail.eraseIdx (r k % avail.length)).length := by
      have := List.length_eraseIdx_add_one hidx
      omega
    have hnd' : (avail.eraseIdx (r k % avail.length)).Nodup :=
      hperm.nodup_iff.mp (hnd.erase _)
    obtain ⟨ihlen, ihmem, ihnd⟩ := ih (avail.eraseIdx (r k % avail.length)) (k + 1) hlen' hnd'
    have htail : ∀ x ∈ genLoop r false (k + 1) n (avail.eraseIdx (r k % avail.length)),
        x ∈ avail := by
      intro x hx
      have hx' : x ∈ avail.erase avail[r k % avail.length] := hperm.mem_iff.mpr (ihmem x hx)
      exact List.erase_subset _ _ hx'
    have hnotmem : avail[r k % avail.length] ∉
        genLoop r false (k + 1) n (avail.eraseIdx (r k % avail.length)) := by
      intro hmem
      have hx' : avail[r k % avail.length] ∈ avail.erase avail[r k % avail.length] :=
        hperm.mem_iff.mpr (ihmem _ hmem)
      exact absurd (hnd.mem_erase_iff.mp hx').1 (by simp)
    refine ⟨?_, ?_, ?_⟩
    · simp only [genLoop, List.length_cons, ihlen]
    · intro x hx
      simp only [genLoop, List.mem_cons] at hx
      rcases hx with hx | hx
      · rw [hx, hhead]; exact List.getElem_mem hidx
      · exact htail x hx
    · simp only [genLoop]
      rw [hhead]
      exact List.nodup_cons.mpr ⟨hnotmem, ihnd⟩

lemma digitChar_isDigit_of_lt : ∀ n < 10, (Nat.digitChar n).isDigit = true := by decide

lemma digitChar_injOn : ∀ a < 10, ∀ b < 10, Nat.digitChar a = Nat.digitChar b → a = b := by
  decide

/-- Claim C9: for digit counts at least 1, `generateRandomSecret` fails with
`InvalidConfiguration` exactly when duplicates are disallowed and more than 10
digits are requested; otherwise it returns a string of exactly
`config.digits` decimal-digit characters, pairwise distinct when duplicates
are disallowed. -/
theorem generateRandomSecret_spec (config : GameConfig) (r : Nat → Nat)
    (hd : 1 ≤ config.digits) :
    (config.allowDuplicate = false ∧ config.digits > 10 →
      generateRandomSecret config r = .error .InvalidConfiguration) ∧
    (config.allowDuplicate = true ∨ config.digits ≤ 10 →
      ∃ s, generateRandomSecret config r = .ok s ∧
        s.length = config.digits ∧ (∀ c ∈ s, c.isDigit) ∧
        (config.allowDuplicate = false → s.Nodup)) := by
  constructor
  · intro hcond
    simp only [generateRandomSecret]
    rw [if_pos hcond]
  · intro hcase
    rcases Bool.eq_false_or_eq_true config.allowDuplicate with hb | hb
    · have hcond : ¬(config.allowDuplicate = false ∧ config.digits > 10) := by
        simp [hb]
      refine ⟨(genLoop r true 0 config.digits (List.range 10)).map Nat.digitChar,
        ?_, ?_, ?_, ?_⟩
      · simp only [generateRandomSecret, hb]
        rw [if_neg (by simp)]
      · rw [List.length_map, (genLoop_true_spec r config.digits 0).1]
      · intro c hc
        obtain ⟨n, hn, rfl⟩ := List.mem_map.mp hc
        exact digitChar_isDigit_of_lt n ((genLoop_true_spec r config.digits 0).2 n hn)
      · intro hfalse
        rw [hb] at hfalse
        cases hfalse
    · have hle : config.digits ≤ 10 := by
        rcases hcase with hc | hc
        · rw [hb] at hc; cases hc
        · exact hc
      obtain ⟨hlen, hmem, hnodup⟩ := genLoop_false_spec r config.digits (List.range 10) 0
        (by rw [List.length_range]; exact hle) (List.nodup_range 10)
      refine ⟨(genLoop r false 0 config.digits (List.range 10)).map Nat.digitChar,
        ?_, ?_, ?_, ?_⟩
      · simp only [generateRandomSecret, hb]
        rw [if_neg (by rintro ⟨-, hgt⟩; omega)]
      · rw [List.length_map, hlen]
      · intro c hc
        obtain ⟨n, hn, rfl⟩ := List.mem_map.mp hc
        exact digitChar_isDigit_of_lt n (List.mem_range.mp (hmem n hn))
      · intro _
        refine List.Nodup.map_on ?_ hnodup
        intro x hx y hy hxy
        exact digitChar_injOn x (List.mem_range.mp (hmem x hx))
          y (List.mem_range.mp (hmem y hy)) hxy

/-- Concrete instantiation of `generateRandomSecret_spec` for a 3-digit
no-duplicate configuration with the constant-zero oracle. -/
theorem generateRandomSecret_spec_witness :
    1 ≤ (GameConfig.mk 3 false).digits ∧
    ∃ s, generateRandomSecret (GameConfig.mk 3 false) (fun _ => 0) = .ok s ∧
      s.length = (GameConfig.mk 3 false).digits ∧ (∀ c ∈ s, c.isDigit) ∧
      ((GameConfig.mk 3 false).allowDuplicate = false → s.Nodup) := by
  have h := generateRandomSecret_spec (GameConfig.mk 3 false) (fun _ => 0) (by decide)
  exact ⟨by decide, h.2 (Or.inr (by decide))⟩

/-! Room service layer (roomTypes.ts and roomService.ts).  A Firestore
document is modelled as `Option Room`; timestamps (`Date.now()`) are passed in
explicitly as `now`. -/

/-- Status of a room (roomTypes.ts, `RoomStatus`). -/
inductive RoomStatus where
  | waiting
  | playing
  | finished
deriving DecidableEq

/-- Role of a player (roomTypes.ts, `PlayerRole`). -/
inductive PlayerRole where
  | host
  | guest
deriving DecidableEq

/-- Player record (roomTypes.ts, `Player`); the optional TypeScript field
`secret?` becomes an `Option`. -/
structure Player where
  uid : String
  role : PlayerRole
  isReady : Bool
  secret : Option String
  guesses : List String
  lastActiveAt : Nat
deriving DecidableEq

/-- Room record (roomTypes.ts, `Room`); the `Player | null` guest becomes an
`Option`. -/
structure Room where
  id : String
  status : RoomStatus
  config : GameConfig
  host : Player
  guest : Option Player
  currentTurn : PlayerRole
  createdAt : Nat
  updatedAt : Nat
deriving DecidableEq

/-- Errors thrown by roomService.ts, one constructor per thrown message. -/
inductive RoomError where
  | NotFound
  | AlreadyFull
  | NotJoinable
  | NotReady
  | SecretsMissing
  | PlayerNotFound
deriving DecidableEq

/-- JavaScript truthiness of an optional string field: `undefined` and the
empty string are falsy (used by `startGame`'s `!room.host.secret`). -/
def secretTruthy : Option String → Bool
  | none => false
  | some s => !(s = "")

/-- Embedding of `createRoom` (roomService.ts lines 29-54); the generated
document id is passed in. -/
def createRoom (config : GameConfig) (hostUid roomId : String) (now : Nat) : Room :=
  { id := roomId
    status := .waiting
    config := config
    host := { uid := hostUid, role := .host, isReady := false, secret := none,
              guesses := [], lastActiveAt := now }
    guest := none
    currentTurn := .host
    createdAt := now
    updatedAt := now }

/-- Embedding of `joinRoom` (roomService.ts lines 62-95). -/
def joinRoom (st : Option Room) (guestUid : String) (now : Nat) :
    Except RoomError Room :=
  match st with
  | none => .error .NotFound
  | some room =>
    if room.guest ≠ none then .error .AlreadyFull
    else if room.status ≠ .waiting then .error .NotJoinable
    else .ok { room with
      guest := some { uid := guestUid, role := .guest, isReady := false,
                      secret := none, guesses := [], lastActiveAt := now }
      updatedAt := now }

/-- Embedding of `updatePlayerReady` (roomService.ts lines 103-129): a uid
matching neither player falls through both branches and performs no write. -/
def updatePlayerReady (st : Option Room) (playerUid : String) (ready : Bool)
    (now : Nat) : Except RoomError Room :=
  match st with
  | none => .error .NotFound
  | some room =>
    if room.host.uid = playerUid then
      .ok { room with host := { room.host with isReady := ready }, updatedAt := now }
    else
      match room.guest with
      | some g =>
        if g.uid = playerUid then
          .ok { room with guest := some { g with isReady := ready }, updatedAt := now }
        else .ok room
      | none => .ok room

/-- Embedding of `setPlayerSecret` (roomService.ts lines 137-162): writes the
secret unconditionally for a matching player, no-op otherwise. -/
def setPlayerSecret (st : Option Room) (playerUid secret : String)
    (now : Nat) : Except RoomError Room :=
  match st with
  | none => .error .NotFound
  | some room =>
    if room.host.uid = playerUid then
      .ok { room with host := { room.host with secret := some secret }, updatedAt := now }
    else
      match room.guest with
      | some g =>
        if g.uid = playerUid then
          .ok { room with guest := some { g with secret := some secret }, updatedAt := now }
        else .ok room
      | none => .ok room

/-- Embedding of `startGame` (roomService.ts lines 168-192): `!room.guest?.isReady`
is truthy when the guest is absent, and the secret checks use JS truthiness. -/
def startGame (st : Option Room) (now : Nat) : Except RoomError Room :=
  match st with
  | none => .error .NotFound
  | some room =>
    match room.guest with
    | none => .error .NotReady
    | some g =>
      if !room.host.isReady || !g.isReady then .error .NotReady
      else if !(secretTruthy room.host.secret) || !(secretTruthy g.secret) then
        .error .SecretsMissing
      else .ok { room with status := .playing, updatedAt := now }

/-- Embedding of `submitGuess` (roomService.ts lines 255-296): the host branch
wins when both uids match; no status or turn check is performed. -/
def submitGuess (st : Option Room) (playerUid guess : String) (now : Nat) :
    Except RoomError Room :=
  match st with
  | none => .error .NotFound
  | some room =>
    if room.host.uid = playerUid then
      .ok { room with
        host := { room.host with guesses := room.host.guesses ++ [guess] }
        currentTurn := .guest
        updatedAt := now }
    else
      match room.guest with
      | some g =>
        if g.uid = playerUid then
          .ok { room with
            guest := some { g with guesses := g.guesses ++ [guess] }
            currentTurn := .host
            updatedAt := now }
        else .error .PlayerNotFound
      | none => .error .PlayerNotFound

/-- Embedding of `finishGame` (roomService.ts lines 302-309): a blind
`updateDoc`, which fails on an absent document. -/
def finishGame (st : Option Room) (now : Nat) : Except RoomError Room :=
  match st with
  | none => .error .NotFound
  | some room => .ok { room with status := .finished, updatedAt := now }

/-- Embedding of `deleteRoom` (roomService.ts lines 315-318). -/
def deleteRoom (_st : Option Room) : Option Room := none

/-- Embedding of `updatePlayerActive` (roomService.ts lines 325-350): returns
silently when the room is absent or the uid matches neither player. -/
def updatePlayerActive (st : Option Room) (playerUid : String) (now : Nat) :
    Option Room :=
  match st with
  | none => none
  | some room =>
    if room.host.uid = playerUid then
      some { room with host := { room.host with lastActiveAt := now }, updatedAt := now }
    else
      match room.guest with
      | some g =>
        if g.uid = playerUid then
          some { room with guest := some { g with lastActiveAt := now }, updatedAt := now }
        else some room
      | none => some room

/-- One exposed operation of roomService.ts, with its caller-supplied
arguments and timestamp. -/
inductive Op where
  | createRoom (config : GameConfig) (hostUid roomId : String) (now : Nat)
  | joinRoom (guestUid : String) (now : Nat)
  | updatePlayerReady (uid : String) (ready : Bool) (now : Nat)
  | setPlayerSecret (uid secret : String) (now : Nat)
  | startGame (now : Nat)
  | submitGuess (uid guess : String) (now : Nat)
  | finishGame (now : Nat)
  | deleteRoom
  | updatePlayerActive (uid : String) (now : Nat)

/-- A thrown error leaves the stored document as it was. -/
def exceptToState (st : Option Room) : Except RoomError Room → Option Room
  | .ok r => some r
  | .error _ => st

/-- Effect of one operation on the stored document.  `createRoom` writes a
fresh document under a fresh id, so it changes the tracked document only when
that document does not exist yet. -/
def applyOp (st : Option Room) : Op → Option Room
  | .createRoom config hostUid roomId now =>
    match st with
    | none => some (createRoom config hostUid roomId now)
    | some r => some r
  | .joinRoom uid now => exceptToState st (joinRoom st uid now)
  | .updatePlayerReady uid ready now => exceptToState st (updatePlayerReady st uid ready now)
  | .setPlayerSecret uid secret now => exceptToState st (setPlayerSecret st uid secret now)
  | .startGame now => exceptToState st (startGame st now)
  | .submitGuess uid guess now => exceptToState st (submitGuess st uid guess now)
  | .finishGame now => exceptToState st (finishGame st now)
  | .deleteRoom => deleteRoom st
  | .updatePlayerActive uid now => updatePlayerActive st uid now

/-- Document reached from the empty store by a sequence of operations. -/
def runOps (ops : List Op) : Option Room :=
  ops.foldl applyOp none

/-- A waiting room in which both players are ready and have secrets set. -/
def waitingRoomReady : Room :=
  { id := "r1"
    status := .waiting
    config := { digits := 4, allowDuplicate := false }
    host := { uid := "h", role := .host, isReady := true, secret := some "1234",
              guesses := [], lastActiveAt := 0 }
    guest := some { uid := "g", role := .guest, isReady := true, secret := some "5678",
                    guesses := [], lastActiveAt := 0 }
    currentTurn := .host
    createdAt := 0
    updatedAt := 0 }

/-- Claim C2: `submitGuess` resolves the caller by uid (host first), appends
the guess to exactly that player's history, flips `currentTurn` to the other
role unconditionally — in particular with no check against the stored
`currentTurn` — and fails `PlayerNotFound` leaving the document unchanged
when the uid matches neither player. -/
theorem submitGuess_matches (room : Room) (uid guess : String) (now : Nat) :
    (room.host.uid = uid →
      submitGuess (some room) uid guess now =
        .ok { room with
          host := { room.host with guesses := room.host.guesses ++ [guess] }
          currentTurn := .guest
          updatedAt := now }) ∧
    (room.host.uid ≠ uid → ∀ g, room.guest = some g → g.uid = uid →
      submitGuess (some room) uid guess now =
        .ok { room with
          guest := some { g with guesses := g.guesses ++ [guess] }
          currentTurn := .host
          updatedAt := now }) ∧
    (room.host.uid ≠ uid → (∀ g, room.guest = some g → g.uid ≠ uid) →
      submitGuess (some room) uid guess now = .error .PlayerNotFound ∧
      applyOp (some room) (Op.submitGuess uid guess now) = some room) := by
  refine ⟨?_, ?_, ?_⟩
  · intro h
    simp only [submitGuess, if_pos h]
  · intro hne g hg hgu
    simp only [submitGuess, if_neg hne, hg]
    rw [if_pos hgu]
  · intro hne hg
    have hsub : submitGuess (some room) uid guess now = .error .PlayerNotFound := by
      cases hguest : room.guest with
      | none => simp only [submitGuess, if_neg hne, hguest]
      | some g =>
        simp only [submitGuess, if_neg hne, hguest]
        rw [if_neg (hg g hguest)]
    exact ⟨hsub, by simp only [applyOp, hsub, exceptToState]⟩

/-- Concrete instantiation of `submitGuess_matches`: the host submits a guess
while it is the host's turn, the guess is appended and the turn flips. -/
theorem submitGuess_matches_witness :
    waitingRoomReady.host.uid = "h" ∧
    submitGuess (some waitingRoomReady) "h" "1111" 7 =
      .ok { waitingRoomReady with
        host := { waitingRoomReady.host with
          guesses := waitingRoomReady.host.guesses ++ ["1111"] }
        currentTurn := .guest
        updatedAt := 7 } :=
  ⟨rfl, (submitGuess_matches waitingRoomReady "h" "1111" 7).1 rfl⟩

/-- Claim C7: `joinRoom` fails `NotFound` on a missing document, then
`AlreadyFull` when a guest is present (even when the status is not waiting),
then `NotJoinable` when the status is not waiting; otherwise it writes a
fresh guest player with the given uid, `isReady := false` and no guesses,
leaving host and config untouched. -/
theorem joinRoom_order (st : Option Room) (uid : String) (now : Nat) :
    (st = none → joinRoom st uid now = .error .NotFound) ∧
    (∀ room, st = some room → room.guest ≠ none →
      joinRoom st uid now = .error .AlreadyFull) ∧
    (∀ room, st = some room → room.guest = none → room.status ≠ .waiting →
      joinRoom st uid now = .error .NotJoinable) ∧
    (∀ room, st = some room → room.guest = none → room.status = .waiting →
      joinRoom st uid now = .ok { room with
        guest := some { uid := uid, role := .guest, isReady := false,
                        secret := none, guesses := [], lastActiveAt := now }
        updatedAt := now }) := by
  refine ⟨?_, ?_, ?_, ?_⟩
  · intro h
    rw [h]
    rfl
  · intro room hst hfull
    rw [hst]
    simp only [joinRoom, if_pos hfull]
  · intro room hst hempty hstat
    rw [hst]
    simp only [joinRoom]
    rw [if_neg (by simp [hempty]), if_pos hstat]
  · intro room hst hempty hstat
    rw [hst]
    simp only [joinRoom]
    rw [if_neg (by simp [hempty]), if_neg (by simp [hstat])]

/-- Concrete instantiation of `joinRoom_order`: joining a waiting room that
already holds a guest fails `AlreadyFull`. -/
theorem joinRoom_order_witness :
    waitingRoomReady.guest ≠ none ∧
    joinRoom (some waitingRoomReady) "g2" 3 = .error .AlreadyFull :=
  ⟨by simp [waitingRoomReady],
    (joinRoom_order (some waitingRoomReady) "g2" 3).2.1 waitingRoomReady rfl
      (by simp [waitingRoomReady])⟩

/-- Claim C10: on an existing room, `setPlayerSecret` and `updatePlayerReady`
called with a uid matching neither player succeed without any error and
return the document entirely unchanged — no `PlayerNotFound` and no
`updatedAt` refresh. -/
theorem unmatched_uid_silent_noop (room : Room) (uid secret : String)
    (ready : Bool) (now : Nat)
    (hh : room.host.uid ≠ uid)
    (hg : ∀ g, room.guest = some g → g.uid ≠ uid) :
    updatePlayerReady (some room) uid ready now = .ok room ∧
    setPlayerSecret (some room) uid secret now = .ok room := by
  constructor
  · cases hguest : room.guest with
    | none => simp only [updatePlayerReady, if_neg hh, hguest]
    | some g =>
      simp only [updatePlayerReady, if_neg hh, hguest]
      rw [if_neg (hg g hguest)]
  · cases hguest : room.guest with
    | none => simp only [setPlayerSecret, if_neg hh, hguest]
    | some g =>
      simp only [setPlayerSecret, if_neg hh, hguest]
      rw [if_neg (hg g hguest)]

/-- Concrete instantiation of `unmatched_uid_silent_noop` at a uid matching
neither player of `waitingRoomReady`. -/
theorem unmatched_uid_silent_noop_witness :
    waitingRoomReady.host.uid ≠ "x" ∧
    updatePlayerReady (some waitingRoomReady) "x" true 9 = .ok waitingRoomReady ∧
    setPlayerSecret (some waitingRoomReady) "x" "0000" 9 = .ok waitingRoomReady := by
  have h := unmatched_uid_silent_noop waitingRoomReady "x" "0000" true 9
    (by simp [waitingRoomReady]) (by intro g hg; simp [waitingRoomReady] at hg; simp [← hg])
  exact ⟨by simp [waitingRoomReady], h.1, h.2⟩

/-- Counterexample to claim C3: `submitGuess` on a room whose status is
`waiting` is accepted and appends the guess — the source performs no status
check. -/
theorem submitGuess_accepted_while_waiting :
    waitingRoomReady.status = .waiting ∧
    submitGuess (some waitingRoomReady) "h" "1111" 5 =
      .ok { waitingRoomReady with
        host := { waitingRoomReady.host with guesses := ["1111"] }
        currentTurn := .guest
        updatedAt := 5 } :=
  ⟨rfl, rfl⟩

/-- Claim C3 as amended: `submitGuess` never checks `status`; a guess by a
player whose uid matches the host or the guest is accepted — and the status
left unchanged — whatever the status is (waiting, playing or finished). -/
theorem submitGuess_ignores_status (room : Room) (uid guess : String) (now : Nat)
    (h : room.host.uid = uid ∨ ∃ g, room.guest = some g ∧ g.uid = uid) :
    ∃ r', submitGuess (some room) uid guess now = .ok r' ∧ r'.status = room.status := by
  by_cases hh : room.host.uid = uid
  · exact ⟨{ room with
        host := { room.host with guesses := room.host.guesses ++ [guess] }
        currentTurn := .guest
        updatedAt := now },
      by simp only [submitGuess, if_pos hh], rfl⟩
  · rcases h with h | ⟨g, hg, hgu⟩
    · exact absurd h hh
    · refine ⟨{ room with
          guest := some { g with guesses := g.guesses ++ [guess] }
          currentTurn := .host
          updatedAt := now }, ?_, rfl⟩
      simp only [submitGuess, if_neg hh, hg]
      rw [if_pos hgu]

/-- Concrete instantiation of `submitGuess_ignores_status` on a waiting
room. -/
theorem submitGuess_ignores_status_witness :
    (waitingRoomReady.host.uid = "h" ∨
      ∃ g, waitingRoomReady.guest = some g ∧ g.uid = "h") ∧
    ∃ r', submitGuess (some waitingRoomReady) "h" "2222" 6 = .ok r' ∧
      r'.status = waitingRoomReady.status :=
  ⟨Or.inl rfl, submitGuess_ignores_status waitingRoomReady "h" "2222" 6 (Or.inl rfl)⟩

lemma exceptToState_some_cases (room r' : Room) (e : Except RoomError Room)
    (h : exceptToState (some room) e = some r') : e = .ok r' ∨ r' = room := by
  cases e with
  | ok x =>
    left
    injection h with h
    rw [h]
  | error err =>
    right
    injection h with h
    exact h.symm

lemma guestSecretEq_self (room : Room) :
    ∀ g g', room.guest = some g → room.guest = some g' → g'.secret = g.secret := by
  intro g g' hg hg'
  rw [hg] at hg'
  injection hg' with e
  subst e
  rfl

lemma guestSecret_of_guest_eq {room r' : Room} (hg : r'.guest = room.guest) :
    ∀ g g', room.guest = some g → r'.guest = some g' → g'.secret = g.secret := by
  intro g g' h1 h2
  rw [hg, h1] at h2
  injection h2 with e
  subst e
  rfl

lemma guestSecret_of_update {room r' : Room} {g0 g1 : Player}
    (hg : room.guest = some g0) (hg' : r'.guest = some g1)
    (hs : g1.secret = g0.secret) :
    ∀ g g', room.guest = some g → r'.guest = some g' → g'.secret = g.secret := by
  intro g g' h1 h2
  rw [hg] at h1
  injection h1 with e1
  subst e1
  rw [hg'] at h2
  injection h2 with e2
  subst e2
  exact hs

lemma applyOp_main_of_eq {room r' : Room} (h : r' = room) (P : Prop) :
    (r'.status = room.status ∨ r'.status = .playing ∨ r'.status = .finished) ∧
    (P ∨ (r'.host.secret = room.host.secret ∧
      ∀ g g', room.guest = some g → r'.guest = some g' → g'.secret = g.secret)) := by
  subst h
  exact ⟨Or.inl rfl, Or.inr ⟨rfl, guestSecretEq_self _⟩⟩

/-- Characterization of one operation applied to an existing document: the
status is preserved or set to `playing`/`finished`, and no operation but
`setPlayerSecret` touches a player's secret. -/
lemma applyOp_some_main (room r' : Room) (op : Op)
    (h : applyOp (some room) op = some r') :
    (r'.status = room.status ∨ r'.status = .playing ∨ r'.status = .finished) ∧
    ((∃ u s n, op = Op.setPlayerSecret u s n) ∨
      (r'.host.secret = room.host.secret ∧
        ∀ g g', room.guest = some g → r'.guest = some g' → g'.secret = g.secret)) := by
  cases op with
  | createRoom c hu ri n =>
    simp only [applyOp] at h
    injection h with h
    exact applyOp_main_of_eq h.symm _
  | joinRoom uid now =>
    simp only [applyOp] at h
    rcases exceptToState_some_cases room r' _ h with he | he
    · simp only [joinRoom] at he
      by_cases h1 : room.guest ≠ none
      · rw [if_pos h1] at he
        exact absurd he (by simp)
      · rw [if_neg h1] at he
        by_cases h2 : room.status ≠ RoomStatus.waiting
        · rw [if_pos h2] at he
          exact absurd he (by simp)
        · rw [if_neg h2] at he
          injection he with he
          subst he
          push_neg at h1
          refine ⟨Or.inl rfl, Or.inr ⟨rfl, ?_⟩⟩
          intro g g' hg hg'
          rw [h1] at hg
          cases hg
    · exact applyOp_main_of_eq he _
  | updatePlayerReady uid ready now =>
    simp only [applyOp] at h
    rcases exceptToState_some_cases room r' _ h with he | he
    · by_cases h1 : room.host.uid = uid
      · simp only [updatePlayerReady, if_pos h1] at he
        injection he with he
        subst he
        exact ⟨Or.inl rfl, Or.inr ⟨rfl, guestSecret_of_guest_eq rfl⟩⟩
      · rcases Option.eq_none_or_eq_some room.guest with hguest | ⟨g0, hguest⟩
        · simp only [updatePlayerReady, if_neg h1, hguest] at he
          injection he with he
          exact applyOp_main_of_eq he.symm _
        · simp only [updatePlayerReady, if_neg h1, hguest] at he
          by_cases h2 : g0.uid = uid
          · rw [if_pos h2] at he
            injection he with he
            subst he
            exact ⟨Or.inl rfl, Or.inr ⟨rfl, guestSecret_of_update hguest rfl rfl⟩⟩
          · rw [if_neg h2] at he
            injection he with he
            exact applyOp_main_of_eq he.symm _
    · exact applyOp_main_of_eq he _
  | setPlayerSecret uid secret now =>
    simp only [applyOp] at h
    rcases exceptToState_some_cases room r' _ h with he | he
    · by_cases h1 : room.host.uid = uid
      · simp only [setPlayerSecret, if_pos h1] at he
        injection he with he
        subst he
        exact ⟨Or.inl rfl, Or.inl ⟨uid, secret, now, rfl⟩⟩
      · rcases Option.eq_none_or_eq_some room.guest with hguest | ⟨g0, hguest⟩
        · simp only [setPlayerSecret, if_neg h1, hguest] at he
          injection he with he
          exact applyOp_main_of_eq he.symm _
        · simp only [setPlayerSecret, if_neg h1, hguest] at he
          by_cases h2 : g0.uid = uid
          · rw [if_pos h2] at he
            injection he with he
            subst he
            exact ⟨Or.inl rfl, Or.inl ⟨uid, secret, now, rfl⟩⟩
          · rw [if_neg h2] at he
            injection he with he
            exact applyOp_main_of_eq he.symm _
    · exact applyOp_main_of_eq he _
  | startGame now =>
    simp only [applyOp] at h
    rcases exceptToState_some_cases room r' _ h with he | he
    · rcases Option.eq_none_or_eq_some room.guest with hguest | ⟨g0, hguest⟩
      · simp only [startGame, hguest] at he
        exact absurd he (by simp)
      · simp only [startGame, hguest] at he
        split at he
        · exact absurd he (by simp)
        · split at he
          · exact absurd he (by simp)
          · injection he with he
            subst he
            exact ⟨Or.inr (Or.inl rfl), Or.inr ⟨rfl, guestSecret_of_update hguest rfl rfl⟩⟩
    · exact applyOp_main_of_eq he _
  | submitGuess uid guess now =>
    simp only [applyOp] at h
    rcases exceptToState_some_cases room r' _ h with he | he
    · by_cases h1 : room.host.uid = uid
      · simp only [submitGuess, if_pos h1] at he
        injection he with he
        subst he
        exact ⟨Or.inl rfl, Or.inr ⟨rfl, guestSecret_of_guest_eq rfl⟩⟩
      · rcases Option.eq_none_or_eq_some room.guest with hguest | ⟨g0, hguest⟩
        · simp only [submitGuess, if_neg h1, hguest] at he
          exact absurd he (by simp)
        · simp only [submitGuess, if_neg h1, hguest] at he
          by_cases h2 : g0.uid = uid
          · rw [if_pos h2] at he
            injection he with he
            subst he
            exact ⟨Or.inl rfl, Or.inr ⟨rfl, guestSecret_of_update hguest rfl rfl⟩⟩
          · rw [if_neg h2] at he
            exact absurd he (by simp)
    · exact applyOp_main_of_eq he _
  | finishGame now =>
    simp only [applyOp] at h
    rcases exceptToState_some_cases room r' _ h with he | he
    · simp only [finishGame] at he
      injection he with he
      subst he
      exact ⟨Or.inr (Or.inr rfl), Or.inr ⟨rfl, guestSecret_of_guest_eq rfl⟩⟩
    · exact applyOp_main_of_eq he _
  | deleteRoom =>
    simp only [applyOp, deleteRoom] at h
    exact Option.noConfusion h
  | updatePlayerActive uid now =>
    by_cases h1 : room.host.uid = uid
    · simp only [applyOp, updatePlayerActive, if_pos h1] at h
      injection h with h
      subst h
      exact ⟨Or.inl rfl, Or.inr ⟨rfl, guestSecret_of_guest_eq rfl⟩⟩
    · rcases Option.eq_none_or_eq_some room.guest with hguest | ⟨g0, hguest⟩
      · simp only [applyOp, updatePlayerActive, if_neg h1, hguest] at h
        injection h with h
        exact applyOp_main_of_eq h.symm _
      · simp only [applyOp, updatePlayerActive, if_neg h1, hguest] at h
        by_cases h2 : g0.uid = uid
        · rw [if_pos h2] at h
          injection h with h
          subst h
          exact ⟨Or.inl rfl, Or.inr ⟨rfl, guestSecret_of_update hguest rfl rfl⟩⟩
        · rw [if_neg h2] at h
          injection h with h
          exact applyOp_main_of_eq h.symm _

/-- Operation sequence that drives a room to `finished` and then calls
`startGame` again. -/
def c4Ops : List Op :=
  [ .createRoom { digits := 4, allowDuplicate := false } "h" "r1" 0,
    .joinRoom "g" 1,
    .setPlayerSecret "h" "1234" 2,
    .setPlayerSecret "g" "5678" 3,
    .updatePlayerReady "h" true 4,
    .updatePlayerReady "g" true 5,
    .startGame 6,
    .finishGame 7,
    .startGame 8 ]

/-- Counterexample to claim C4: `startGame` performs no status check, so a
session reachable by the exposed operations moves from `finished` back to
`playing`. -/
theorem status_reverts_after_finish :
    (runOps (c4Ops.take 8)).map Room.status = some .finished ∧
    (runOps c4Ops).map Room.status = some .playing := by
  constructor <;> rfl

/-- Claim C4 as amended: status never returns to `waiting`, and from
`playing` it can only stay `playing` or move to `finished`; but `startGame`
checks only readiness and secrets, not the current status, so a `finished`
session can move back to `playing`. -/
theorem status_never_reverts (room r' : Room) (op : Op)
    (h : applyOp (some room) op = some r') :
    (r'.status = .waiting → room.status = .waiting) ∧
    (room.status = .playing → r'.status = .playing ∨ r'.status = .finished) := by
  obtain ⟨hs, -⟩ := applyOp_some_main room r' op h
  constructor
  · intro hw
    rcases hs with hs | hs | hs
    · rw [← hs]
      exact hw
    · rw [hw] at hs
      cases hs
    · rw [hw] at hs
      cases hs
  · intro hp
    rcases hs with hs | hs | hs
    · left
      rw [hs, hp]
    · left
      exact hs
    · right
      exact hs

/-- Concrete instantiation of `status_never_reverts` at a readiness update
on a waiting room. -/
theorem status_never_reverts_witness :
    applyOp (some waitingRoomReady) (Op.updatePlayerReady "h" true 3) =
      some { waitingRoomReady with
        host := { waitingRoomReady.host with isReady := true }
        updatedAt := 3 } ∧
    (({ waitingRoomReady with
        host := { waitingRoomReady.host with isReady := true }
        updatedAt := 3 } : Room).status = .waiting →
      waitingRoomReady.status = .waiting) := by
  have harg : applyOp (some waitingRoomReady) (Op.updatePlayerReady "h" true 3) =
      some { waitingRoomReady with
        host := { waitingRoomReady.host with isReady := true }
        updatedAt := 3 } := rfl
  exact ⟨harg, (status_never_reverts _ _ _ harg).1⟩

/-- Counterexample to claim C5: `setPlayerSecret` writes unconditionally, so
a player's already-set secret is reassigned to a different value. -/
theorem setPlayerSecret_overwrites :
    waitingRoomReady.host.secret = some "1234" ∧
    setPlayerSecret (some waitingRoomReady) "h" "9999" 9 =
      .ok { waitingRoomReady with
        host := { waitingRoomReady.host with secret := some "9999" }
        updatedAt := 9 } ∧
    ({ waitingRoomReady with
        host := { waitingRoomReady.host with secret := some "9999" }
        updatedAt := 9 } : Room).host.secret ≠ waitingRoomReady.host.secret := by
  refine ⟨rfl, rfl, by decide⟩

/-- Claim C5 as amended: a player's secret is changed only by
`setPlayerSecret` (which overwrites unconditionally); every other operation
preserves both players' secrets. -/
theorem secret_preserved_by_other_ops (room r' : Room) (op : Op)
    (h : applyOp (some room) op = some r')
    (hop : ∀ u s n, op ≠ Op.setPlayerSecret u s n) :
    r'.host.secret = room.host.secret ∧
    ∀ g g', room.guest = some g → r'.guest = some g' → g'.secret = g.secret := by
  obtain ⟨-, hsec⟩ := applyOp_some_main room r' op h
  rcases hsec with ⟨u, s, n, hu⟩ | hsec
  · exact absurd hu (hop u s n)
  · exact hsec

/-- Concrete instantiation of `secret_preserved_by_other_ops` at a
`finishGame` call. -/
theorem secret_preserved_by_other_ops_witness :
    applyOp (some waitingRoomReady) (Op.finishGame 7) =
      some { waitingRoomReady with status := .finished, updatedAt := 7 } ∧
    ({ waitingRoomReady with status := .finished, updatedAt := 7 } : Room).host.secret =
      waitingRoomReady.host.secret := by
  have harg : applyOp (some waitingRoomReady) (Op.finishGame 7) =
      some { waitingRoomReady with status := .finished, updatedAt := 7 } := rfl
  exact ⟨harg,
    (secret_preserved_by_other_ops _ _ _ harg (fun u s n hop => Op.noConfusion hop)).1⟩

end HitAndBlow
